import Mathlib

/-!
Verification of the UofT bibliometrics dashboard ETL and presentation
pipeline against its specification.

The development shallowly embeds the Python sources:

* `src/etl/transform.py` — `extract_concepts`, `extract_countries`,
  `extract_institutions`, `transform_works`, `build_country_edges`,
  `build_institution_edges`;
* `src/etl/refresh.py` and `src/recover.py` — the transform stage of
  `full_refresh` and the replay pipeline of `run_recovery`, including the
  pandas DataFrame round trip through the raw checkpoint;
* `src/etl/load.py` — `load_processed` and `load_all` over an abstract
  file system;
* `src/dashboard/callbacks.py` — `apply_filters` and `render_tab`;
* `src/dashboard/layout.py` — the tab bar;
* `src/dashboard/components/network_view.py` — `calculate_node_size` and
  `_build_cytoscape_elements`.

Python runtime values (records fetched from the OpenAlex API, cell values
of the pandas tables) are embedded as the inductive type `Val` below.
Numeric scores and years are embedded as integers (real scores are floats;
nothing proved here depends on fractional score values).  Fallible Python
code (attribute errors and type errors raised on malformed records) is
embedded with `Except String`.
-/

/-- A Python value as it occurs in the raw OpenAlex records and in the
cells of the processed tables: `None`, the float `NaN` that pandas uses to
fill missing entries, strings, integers, booleans, lists and string-keyed
dictionaries. -/
inductive Val where
  | vnone
  | vnan
  | vstr (s : String)
  | vint (n : Int)
  | vbool (b : Bool)
  | vlist (xs : List Val)
  | vdict (kvs : List (String × Val))
deriving Repr, Inhabited

mutual

/-- Structural equality of embedded Python values. -/
def Val.beq : Val → Val → Bool
  | .vnone, .vnone => true
  | .vnan, .vnan => true
  | .vstr a, .vstr b => a == b
  | .vint a, .vint b => a == b
  | .vbool a, .vbool b => a == b
  | .vlist xs, .vlist ys => beqValList xs ys
  | .vdict xs, .vdict ys => beqKVList xs ys
  | _, _ => false

def beqValList : List Val → List Val → Bool
  | [], [] => true
  | x :: xs, y :: ys => Val.beq x y && beqValList xs ys
  | _, _ => false

def beqKVList : List (String × Val) → List (String × Val) → Bool
  | [], [] => true
  | (k1, v1) :: xs, (k2, v2) :: ys => k1 == k2 && Val.beq v1 v2 && beqKVList xs ys
  | _, _ => false

end

mutual

theorem Val.beq_iff : ∀ (a b : Val), Val.beq a b = true ↔ a = b
  | .vnone, .vnone => by simp [Val.beq]
  | .vnan, .vnan => by simp [Val.beq]
  | .vstr a, .vstr b => by simp [Val.beq]
  | .vint a, .vint b => by simp [Val.beq]
  | .vbool a, .vbool b => by simp [Val.beq]
  | .vlist xs, .vlist ys => by simp [Val.beq, beqValList_iff xs ys]
  | .vdict xs, .vdict ys => by simp [Val.beq, beqKVList_iff xs ys]
  | .vnone, .vnan => by simp [Val.beq]
  | .vnone, .vstr _ => by simp [Val.beq]
  | .vnone, .vint _ => by simp [Val.beq]
  | .vnone, .vbool _ => by simp [Val.beq]
  | .vnone, .vlist _ => by simp [Val.beq]
  | .vnone, .vdict _ => by simp [Val.beq]
  | .vnan, .vnone => by simp [Val.beq]
  | .vnan, .vstr _ => by simp [Val.beq]
  | .vnan, .vint _ => by simp [Val.beq]
  | .vnan, .vbool _ => by simp [Val.beq]
  | .vnan, .vlist _ => by simp [Val.beq]
  | .vnan, .vdict _ => by simp [Val.beq]
  | .vstr _, .vnone => by simp [Val.beq]
  | .vstr _, .vnan => by simp [Val.beq]
  | .vstr _, .vint _ => by simp [Val.beq]
  | .vstr _, .vbool _ => by simp [Val.beq]
  | .vstr _, .vlist _ => by simp [Val.beq]
  | .vstr _, .vdict _ => by simp [Val.beq]
  | .vint _, .vnone => by simp [Val.beq]
  | .vint _, .vnan => by simp [Val.beq]
  | .vint _, .vstr _ => by simp [Val.beq]
  | .vint _, .vbool _ => by simp [Val.beq]
  | .vint _, .vlist _ => by simp [Val.beq]
  | .vint _, .vdict _ => by simp [Val.beq]
  | .vbool _, .vnone => by simp [Val.beq]
  | .vbool _, .vnan => by simp [Val.beq]
  | .vbool _, .vstr _ => by simp [Val.beq]
  | .vbool _, .vint _ => by simp [Val.beq]
  | .vbool _, .vlist _ => by simp [Val.beq]
  | .vbool _, .vdict _ => by simp [Val.beq]
  | .vlist _, .vnone => by simp [Val.beq]
  | .vlist _, .vnan => by simp [Val.beq]
  | .vlist _, .vstr _ => by simp [Val.beq]
  | .vlist _, .vint _ => by simp [Val.beq]
  | .vlist _, .vbool _ => by simp [Val.beq]
  | .vlist _, .vdict _ => by simp [Val.beq]
  | .vdict _, .vnone => by simp [Val.beq]
  | .vdict _, .vnan => by simp [Val.beq]
  | .vdict _, .vstr _ => by simp [Val.beq]
  | .vdict _, .vint _ => by simp [Val.beq]
  | .vdict _, .vbool _ => by simp [Val.beq]
  | .vdict _, .vlist _ => by simp [Val.beq]

theorem beqValList_iff : ∀ (xs ys : List Val), beqValList xs ys = true ↔ xs = ys
  | [], [] => by simp [beqValList]
  | x :: xs, y :: ys => by
      simp [beqValList, Val.beq_iff x y, beqValList_iff xs ys]
  | [], _ :: _ => by simp [beqValList]
  | _ :: _, [] => by simp [beqValList]

theorem beqKVList_iff : ∀ (xs ys : List (String × Val)), beqKVList xs ys = true ↔ xs = ys
  | [], [] => by simp [beqKVList]
  | (k1, v1) :: xs, (k2, v2) :: ys => by
      simp [beqKVList, Val.beq_iff v1 v2, beqKVList_iff xs ys]
  | [], _ :: _ => by simp [beqKVList]
  | _ :: _, [] => by simp [beqKVList]

end

instance : BEq Val := ⟨Val.beq⟩

instance : LawfulBEq Val where
  eq_of_beq h := (Val.beq_iff _ _).mp h
  rfl := (Val.beq_iff _ _).mpr rfl

instance : DecidableEq Val := fun a b => decidable_of_iff _ (Val.beq_iff a b)

deriving instance DecidableEq for Except

/-- Python truthiness of an embedded value.  `None`, empty strings, zero,
`False` and empty containers are falsy; `NaN` is a nonzero float and is
truthy. -/
def truthy : Val → Bool
  | .vnone => false
  | .vnan => true
  | .vstr s => !s.isEmpty
  | .vint n => n != 0
  | .vbool b => b
  | .vlist xs => !xs.isEmpty
  | .vdict kvs => !kvs.isEmpty

/-- The Python expression `a or b`: `a` when truthy, else `b`. -/
def pyOr (a b : Val) : Val := if truthy a then a else b

/-- Whether a value is a Python dict, as tested by `isinstance(x, dict)`. -/
def Val.isDict : Val → Bool
  | .vdict _ => true
  | _ => false

/-- `d.get(key, default)` on a value already known to be a dict; on any
other value it returns the default (callers below only use it after an
`isinstance(x, dict)` guard or with the surrounding code established to
hold a dict). -/
def Val.getD (v : Val) (k : String) (d : Val) : Val :=
  match v with
  | .vdict kvs => (kvs.lookup k).getD d
  | _ => d

/-- `d.get(key)` on a value already known to be a dict (returns `None`
when the key is absent). -/
def Val.get (v : Val) (k : String) : Val := v.getD k .vnone

/-- `v.get(key)` on an arbitrary value: raises `AttributeError` when `v`
is not a dict, as Python does. -/
def pyGet (v : Val) (k : String) : Except String Val :=
  match v with
  | .vdict kvs => .ok ((kvs.lookup k).getD .vnone)
  | _ => .error ("AttributeError: get " ++ k)

/-- `len(v)`: defined for sized values (strings, lists, dicts), a
`TypeError` otherwise — in particular on the `NaN` fill values that a
pandas round trip introduces. -/
def pyLen : Val → Except String Nat
  | .vstr s => .ok s.length
  | .vlist xs => .ok xs.length
  | .vdict kvs => .ok kvs.length
  | _ => .error "TypeError: object has no len"

/-- The characters of the last `"/"`-separated segment of a string:
`s.split("/")[-1]` (the split of a string on a separator is never empty,
so the `[-1]` index never fails). -/
def lastSegAux (cs : List Char) (cur : List Char) : List Char :=
  match cs with
  | [] => cur
  | c :: rest => if c = '/' then lastSegAux rest [] else lastSegAux rest (cur ++ [c])

/-- `inst_id.split("/")[-1]`: the last segment of a string id; raises
`AttributeError` when the value is not a string. -/
def lastSegment (v : Val) : Except String String :=
  match v with
  | .vstr s => .ok (String.mk (lastSegAux s.data []))
  | _ => .error "AttributeError: split"

/-! ## src/etl/transform.py -/

/-- One entry of the list returned by `extract_concepts`: the
`name`/`level`/`score` projection of a raw concept dict
(`transform.py` lines 18-22). -/
structure ConceptOut where
  name : Val
  level : Val
  score : Val
deriving Repr, DecidableEq

/-- The sort key of `extract_concepts` (`transform.py` line 11):
`x.get("score", 0) if isinstance(x, dict) else 0`.  Numeric scores are
embedded as integers; non-numeric score values give key 0. -/
def conceptKey (c : Val) : Int :=
  if c.isDict then
    match c.getD "score" (.vint 0) with
    | .vint n => n
    | _ => 0
  else 0

/-- The descending-score comparison used to sort concepts
(`sorted(..., reverse=True)` is a stable descending sort). -/
def conceptDesc (a b : Val) : Bool := conceptKey b ≤ conceptKey a

/-- Insert an element into a sorted list, before the first element it
compares no worse than.  Used to model the stable sorts of the source
(`sorted` in `transform.py`, `sort_values` in `network_view.py`): a
stable sort result is uniquely determined by the comparison, so
insertion sort and timsort agree. -/
def orderedInsert {α : Type} (le : α → α → Bool) (a : α) : List α → List α
  | [] => [a]
  | b :: bs => if le a b then a :: b :: bs else b :: orderedInsert le a bs

/-- Stable sort by the comparison `le` (`le a b` meaning `a` may come
before `b`). -/
def stableSort {α : Type} (le : α → α → Bool) : List α → List α
  | [] => []
  | a :: as => orderedInsert le a (stableSort le as)

/-- Projection of one raw concept dict to the record appended by
`extract_concepts`. -/
def conceptOut (c : Val) : ConceptOut :=
  { name := c.get "display_name", level := c.get "level", score := c.get "score" }

/-- `extract_concepts` (`transform.py` lines 3-24): `None`, `NaN` and
empty inputs yield the empty list; a list input is stably sorted by
descending score, truncated to the top `top_n`, and the dict entries are
projected to name/level/score records (non-dict entries are skipped).
Iterating a string or a dict yields characters or keys, none of which is
a dict, so those sized inputs also yield the empty list; `len()` of any
other value raises. -/
def extract_concepts (concepts : Val) (top_n : Nat) : Except String (List ConceptOut) :=
  match concepts with
  | .vnone => .ok []
  | .vnan => .ok []
  | .vlist cs =>
      .ok ((((stableSort conceptDesc cs).take top_n).filter Val.isDict).map conceptOut)
  | .vstr _ => .ok []
  | .vdict _ => .ok []
  | _ => .error "TypeError: object has no len"

/-- The countries contributed by one institution entry of one authorship
(`transform.py` lines 34-42): non-dict entries are skipped, the home
institution (trailing id segment `I185261750`) is excluded, falsy country
codes are dropped. -/
def instCountry (inst : Val) (excludeId : String) : Except String (List Val) :=
  if inst.isDict then do
    let seg ← lastSegment (pyOr (inst.get "id") (.vstr ""))
    if seg ≠ excludeId then
      let country := inst.get "country_code"
      pure (if truthy country then [country] else [])
    else
      pure []
  else
    pure []

/-- Iterating a Python value with `for x in v`: lists yield their
elements, strings their characters, dicts their keys; other values raise
`TypeError`. -/
def pyIter : Val → Except String (List Val)
  | .vlist xs => .ok xs
  | .vstr s => .ok (s.data.map (fun c => .vstr (String.singleton c)))
  | .vdict kvs => .ok (kvs.map (fun kv => .vstr kv.1))
  | _ => .error "TypeError: object is not iterable"

/-- The countries contributed by one authorship (`transform.py` lines
31-42): non-dict authorships are skipped; the `institutions` entry
(defaulting to the empty list) is iterated. -/
def authorshipCountries (a : Val) (excludeId : String) : Except String (List Val) :=
  if a.isDict then do
    let items ← pyIter (a.getD "institutions" (.vlist []))
    let lists ← items.mapM (fun i => instCountry i excludeId)
    pure lists.flatten
  else
    pure []

/-- `extract_countries` (`transform.py` lines 26-43).  `None`, `NaN` and
empty inputs yield the empty list; for a list of authorships the country
codes of all non-excluded institutions are collected and deduplicated by
`list(set(countries))`.  Python set iteration order is unspecified; the
model fixes the order of `List.dedup`, and nothing proved below depends
on it.  Iterating a string or dict yields no dict elements, hence the
empty list. -/
def extract_countries (authorships : Val) (excludeId : String) : Except String (List Val) :=
  match authorships with
  | .vnone => .ok []
  | .vnan => .ok []
  | .vlist as => do
      let lists ← as.mapM (fun a => authorshipCountries a excludeId)
      pure lists.flatten.dedup
  | .vstr _ => .ok []
  | .vdict _ => .ok []
  | _ => .error "TypeError: object has no len"

/-- One entry of the list returned by `extract_institutions`
(`transform.py` lines 59-64). -/
structure Inst where
  name : Val
  country : Val
  ror : Val
  openalex_id : Val
deriving Repr, DecidableEq

/-- The institution records contributed by one institution entry
(`transform.py` lines 53-64): no deduplication is performed. -/
def instRecord (inst : Val) (excludeId : String) : Except String (List Inst) :=
  if inst.isDict then do
    let seg ← lastSegment (pyOr (inst.get "id") (.vstr ""))
    if seg ≠ excludeId then
      pure [{ name := inst.get "display_name", country := inst.get "country_code",
              ror := inst.get "ror", openalex_id := inst.get "id" }]
    else
      pure []
  else
    pure []

/-- The institution records contributed by one authorship. -/
def authorshipInsts (a : Val) (excludeId : String) : Except String (List Inst) :=
  if a.isDict then do
    let items ← pyIter (a.getD "institutions" (.vlist []))
    let lists ← items.mapM (fun i => instRecord i excludeId)
    pure lists.flatten
  else
    pure []

/-- `extract_institutions` (`transform.py` lines 45-65): like
`extract_countries` but appending one full record per institution
occurrence, with no deduplication. -/
def extract_institutions (authorships : Val) (excludeId : String) : Except String (List Inst) :=
  match authorships with
  | .vnone => .ok []
  | .vnan => .ok []
  | .vlist as => do
      let lists ← as.mapM (fun a => authorshipInsts a excludeId)
      pure lists.flatten
  | .vstr _ => .ok []
  | .vdict _ => .ok []
  | _ => .error "TypeError: object has no len"

/-- One row of the tidy works table built by `transform_works`
(`transform.py` lines 87-102). -/
structure WorkRow where
  id : Val
  title : Val
  year : Val
  type : Val
  is_oa : Val
  oa_status : Val
  cited_by_count : Val
  top_concept : Val
  concept_level : Val
  all_top_concepts : List ConceptOut
  collab_countries : List Val
  collab_institutions : List Inst
  author_count : Nat
  source_name : Val
deriving Repr, DecidableEq

/-- The body of the `for w in raw_works` loop of `transform_works`
(`transform.py` lines 70-102), building one row.  A non-dict record, a
truthy non-dict `primary_location` or `source`, a non-dict non-missing
`open_access` value, or an unsized `authorships` value raises, as in
Python. -/
def buildRow (w : Val) : Except String WorkRow := do
  if w.isDict then
    let top_concepts_list ← extract_concepts (w.getD "concepts" (.vlist [])) 5
    let primary_concept := match top_concepts_list with
      | [] => Val.vnone
      | c :: _ => c.name
    let primary_concept_level := match top_concepts_list with
      | [] => Val.vnone
      | c :: _ => c.level
    let collab_countries ← extract_countries (w.getD "authorships" (.vlist [])) "I185261750"
    let collab_institutions ← extract_institutions (w.getD "authorships" (.vlist [])) "I185261750"
    let primary_loc := pyOr (w.get "primary_location") (.vdict [])
    let sourceVal ← pyGet primary_loc "source"
    let source_dict := pyOr sourceVal (.vdict [])
    let source_name ← pyGet source_dict "display_name"
    let oaDict := w.getD "open_access" (.vdict [])
    let is_oa ← pyGet oaDict "is_oa"
    let oa_status ← pyGet oaDict "oa_status"
    let author_count ← pyLen (w.getD "authorships" (.vlist []))
    pure { id := w.get "id", title := w.get "title", year := w.get "publication_year",
           type := w.get "type", is_oa := is_oa, oa_status := oa_status,
           cited_by_count := w.getD "cited_by_count" (.vint 0),
           top_concept := primary_concept, concept_level := primary_concept_level,
           all_top_concepts := top_concepts_list,
           collab_countries := collab_countries,
           collab_institutions := collab_institutions,
           author_count := author_count, source_name := source_name }
  else
    throw "AttributeError: get"

/-- `transform_works` (`transform.py` lines 67-104): flatten the raw
records into the tidy works table, one row per record. -/
def transform_works (raw_works : List Val) : Except String (List WorkRow) :=
  raw_works.mapM buildRow

/-- One row of the country-edges table (`transform.py` lines 114-119). -/
structure CountryEdge where
  work_id : Val
  year : Val
  country_code : Val
  top_concept : Val
  all_top_concepts : List ConceptOut
deriving Repr, DecidableEq

/-- `build_country_edges` (`transform.py` lines 106-121): one row per
entry of each work row's `collab_countries` list. -/
def build_country_edges (df : List WorkRow) : List CountryEdge :=
  df.flatMap (fun row => row.collab_countries.map (fun country =>
    { work_id := row.id, year := row.year, country_code := country,
      top_concept := row.top_concept, all_top_concepts := row.all_top_concepts }))

/-- One row of the institution-edges table (`transform.py` lines
131-139). -/
structure InstitutionEdge where
  source : String
  target : Val
  target_country : Val
  year : Val
  work_id : Val
  top_concept : Val
  all_top_concepts : List ConceptOut
deriving Repr, DecidableEq

/-- `build_institution_edges` (`transform.py` lines 123-140): one row per
entry of each work row's `collab_institutions` list, with the constant
source `"University of Toronto"`. -/
def build_institution_edges (df : List WorkRow) : List InstitutionEdge :=
  df.flatMap (fun row => row.collab_institutions.map (fun inst =>
    { source := "University of Toronto", target := inst.name,
      target_country := inst.country, year := row.year, work_id := row.id,
      top_concept := row.top_concept, all_top_concepts := row.all_top_concepts }))

/-! ## src/etl/refresh.py and src/recover.py -/

/-- The keys of one raw record (a pandas column-inference helper). -/
def recordKeys (r : Val) : List String :=
  match r with
  | .vdict kvs => kvs.map Prod.fst
  | _ => []

/-- The column set that `pd.DataFrame(raw_works)` infers: the union of
the keys of all records. -/
def unionKeys (records : List Val) : List String :=
  (records.flatMap recordKeys).dedup

/-- The raw-checkpoint round trip performed between `full_refresh` and
`run_recovery`: `save_raw` builds `pd.DataFrame(raw_works)` and writes it
to parquet (`load.py` lines 13-19), and `run_recovery` reads it back and
calls `.to_dict(orient="records")` (`recover.py` lines 10-13).  Each
record becomes a dict over the full column set, with entries that were
missing from it filled with `NaN`; present values are preserved (nested
objects travel through the object-dtype column unchanged).  Records that
are not dicts are outside the modelled behaviour. -/
def pandasRoundTrip (records : List Val) : Except String (List Val) :=
  if records.all Val.isDict then
    .ok (records.map (fun r =>
      .vdict ((unionKeys records).map (fun k => (k, r.getD k .vnan)))))
  else
    .error "pandas: records must be dicts"

/-- The three processed tables written by `save_processed`
(`refresh.py` lines 20-22, `recover.py` lines 21-23). -/
structure ProcessedTables where
  works : List WorkRow
  country_edges : List CountryEdge
  institution_edges : List InstitutionEdge
deriving Repr, DecidableEq

/-- The transform stage shared by `full_refresh` (`refresh.py` lines
16-18) and `run_recovery` (`recover.py` lines 16-18). -/
def transformStage (raw : List Val) : Except String ProcessedTables := do
  let df ← transform_works raw
  pure { works := df, country_edges := build_country_edges df,
         institution_edges := build_institution_edges df }

/-- The tables produced by the transform stage of `full_refresh`
(`refresh.py` lines 6-24), applied directly to the fetched records. -/
def full_refresh_tables (raw : List Val) : Except String ProcessedTables :=
  transformStage raw

/-- The tables produced by `run_recovery` (`recover.py` lines 6-24):
the raw checkpoint written by `full_refresh` is read back from disk and
fed to the same transform stage. -/
def run_recovery_tables (raw : List Val) : Except String ProcessedTables := do
  let records ← pandasRoundTrip raw
  transformStage records

/-! ## src/etl/load.py -/

/-- `PROCESSED_DIR / filename` (`load.py` lines 7 and 29). -/
def processedPath (filename : String) : String :=
  "data/processed/" ++ filename

/-- `load_processed` (`load.py` lines 28-34) over an abstract read-only
file system mapping paths to stored tables (a table here is its list of
rows): a missing file raises `FileNotFoundError` with a message naming
the path and instructing the operator to run the refresh job. -/
def load_processed (fs : String → Option (List Val)) (filename : String) :
    Except String (List Val) :=
  match fs (processedPath filename) with
  | none => .error (processedPath filename ++
      " not found. Run etl/refresh.py first to build the data cache.")
  | some t => .ok t

/-- `load_all` (`load.py` lines 36-65): loads the three processed tables
in order.  The subsequent `astype("category")` conversions are
value-preserving memory optimizations and are not modelled. -/
def load_all (fs : String → Option (List Val)) :
    Except String (List Val × List Val × List Val) := do
  let works ← load_processed fs "works.parquet"
  let country_edges ← load_processed fs "country_edges.parquet"
  let institution_edges ← load_processed fs "institution_edges.parquet"
  pure (works, country_edges, institution_edges)

/-! ## src/dashboard/callbacks.py -/

/-- Pandas comparison `works["year"] >= lo`: true on integer years,
false on `NaN`/`None`/non-numeric cells. -/
def yearGe (v : Val) (lo : Int) : Bool :=
  match v with
  | .vint m => lo ≤ m
  | _ => false

/-- Pandas comparison `works["year"] <= hi`. -/
def yearLe (v : Val) (hi : Int) : Bool :=
  match v with
  | .vint m => m ≤ hi
  | _ => false

/-- Step 1 of `apply_filters` (`callbacks.py` lines 31-33): keep rows
whose year lies in the slider range. -/
def filterYear (lo hi : Int) (l : List WorkRow) : List WorkRow :=
  l.filter (fun w => yearGe w.year lo && yearLe w.year hi)

/-- Step 2 of `apply_filters` (`callbacks.py` lines 36-43): when the
concept selection is non-empty, keep rows one of whose top concepts has
its name in the selection.  A `None` selection and an empty selection
take the same (skip) branch; `all_top_concepts` of a transformed row is
always a list, so the `isinstance` guard holds. -/
def filterConcepts (selected_concepts : List Val) (l : List WorkRow) : List WorkRow :=
  if selected_concepts.isEmpty then l
  else l.filter (fun w =>
    w.all_top_concepts.any (fun c => selected_concepts.contains c.name))

/-- Step 3 of `apply_filters` (`callbacks.py` lines 46-47): when the type
selection is non-empty, keep rows whose type is in the selection. -/
def filterTypes (types : List Val) (l : List WorkRow) : List WorkRow :=
  if types.isEmpty then l
  else l.filter (fun w => types.contains w.type)

/-- Step 4 of `apply_filters` (`callbacks.py` lines 50-51): when the
open-access checklist contains `"oa"`, keep rows with `is_oa == True`. -/
def filterOa (oa : List String) (l : List WorkRow) : List WorkRow :=
  if oa.contains "oa" then l.filter (fun w => w.is_oa == Val.vbool true) else l

/-- `apply_filters` (`callbacks.py` lines 25-53): the four sidebar
filters applied in sequence to the works table. -/
def apply_filters (works : List WorkRow) (year_range : Int × Int)
    (selected_concepts : List Val) (types : List Val) (oa : List String) :
    List WorkRow :=
  filterOa oa (filterTypes types (filterConcepts selected_concepts
    (filterYear year_range.1 year_range.2 works)))

/-- The distinct tab views that `render_tab` can return
(`callbacks.py` lines 85-99), abstracted to which renderer is invoked. -/
inductive TabContent where
  | overviewTab
  | trendsTab
  | mapTab
  | networkTab
  | tableTab
  | defaultMsg
deriving Repr, DecidableEq

/-- `render_tab` (`callbacks.py` lines 85-99): dispatch on the active
tab identifier; any unknown identifier falls through to the
"Select a tab above." placeholder. -/
def render_tab (active_tab : String) : TabContent :=
  if active_tab = "overview" then .overviewTab
  else if active_tab = "trends" then .trendsTab
  else if active_tab = "map" then .mapTab
  else if active_tab = "network" then .networkTab
  else if active_tab = "table" then .tableTab
  else .defaultMsg

/-! ## src/dashboard/layout.py -/

/-- One tab of the tab bar. -/
structure Tab where
  label : String
  tab_id : String
deriving Repr, DecidableEq

/-- The tab bar defined in `layout.py` lines 60-65. -/
def main_tabs : List Tab :=
  [{ label := "Overview & Trends", tab_id := "overview" },
   { label := "Collaboration Map", tab_id := "map" },
   { label := "Network Graph", tab_id := "network" },
   { label := "Data Table", tab_id := "table" }]

/-! ## src/dashboard/components/network_view.py -/

/-- `UOFT_NODE_ID` (`network_view.py` line 12). -/
def UOFT_NODE_ID : String := "University of Toronto"

/-- `MIN_PX` (`network_view.py` line 47). -/
def MIN_PX : ℚ := 15

/-- `MAX_PX` (`network_view.py` line 48). -/
def MAX_PX : ℚ := 65

/-- `calculate_node_size` (`network_view.py` lines 50-54), with the
float arithmetic embedded over the rationals: when all aggregated
weights coincide the division is skipped and the midpoint size is
returned; otherwise min-max normalization into the pixel range. -/
def calculate_node_size (min_weight max_weight w : ℚ) : ℚ :=
  if max_weight = min_weight then (MIN_PX + MAX_PX) / 2
  else MIN_PX + ((w - min_weight) / (max_weight - min_weight)) * (MAX_PX - MIN_PX)

/-- Whether a cell is a pandas missing value (`NaN`, or `None` read back
as `NaN`): rows whose groupby key contains one are dropped by
`groupby(..., dropna=True)`, the pandas default. -/
def Val.isNa : Val → Bool
  | .vnan => true
  | .vnone => true
  | _ => false

/-- One row of the `edge_agg` aggregation (`network_view.py` lines
31-36): a (source, target, target country) group with its size. -/
structure AggRow where
  source : String
  target : Val
  target_country : Val
  weight : Nat
deriving Repr, DecidableEq

/-- The groupby key of `edge_agg`. -/
def aggKey (e : InstitutionEdge) : String × Val × Val :=
  (e.source, e.target, e.target_country)

/-- `edge_agg` (`network_view.py` lines 31-36): group the filtered edges
by (source, target, target_country), count each group, and stably sort
by descending weight.  Rows with a missing key component are dropped as
pandas `groupby` does; the pre-sort order of groups (lexicographic in
pandas) is modelled as order of occurrence — every property proved below
is independent of the order of equal-weight groups. -/
def edge_agg (filtered : List InstitutionEdge) : List AggRow :=
  let keyed := (filtered.filter (fun e => !(e.target.isNa || e.target_country.isNa))).map aggKey
  let groups := keyed.dedup.map (fun k =>
    { source := k.1, target := k.2.1, target_country := k.2.2,
      weight := keyed.count k : AggRow })
  stableSort (fun a b => b.weight ≤ a.weight) groups

/-- One Cytoscape element (`network_view.py` lines 60-91), abstracted to
the data that the claims speak about: the hub node, an institution node,
or an edge. -/
inductive CyElement where
  | hubNode (id label : String) (size : ℚ)
  | instNode (id label country : Val) (size : ℚ) (works_count : Nat)
  | edgeEl (source : String) (target : Val) (weight : Nat) (label : String)
deriving Repr, DecidableEq

/-- The `for _, row in edge_agg.iterrows()` loop of
`_build_cytoscape_elements` (`network_view.py` lines 66-91): append an
institution node for each first-seen target, then an edge from the hub
to the target. -/
def addAggRows (minW maxW : ℚ) : List AggRow → List CyElement → List Val → List CyElement
  | [], elements, _ => elements
  | r :: rs, elements, seen =>
      if seen.contains r.target then
        addAggRows minW maxW rs
          (elements ++ [.edgeEl UOFT_NODE_ID r.target r.weight (toString r.weight)])
          seen
      else
        addAggRows minW maxW rs
          ((elements ++
            [.instNode r.target r.target r.target_country
              (calculate_node_size minW maxW (r.weight : ℚ)) r.weight]) ++
           [.edgeEl UOFT_NODE_ID r.target r.weight (toString r.weight)])
          (seen ++ [r.target])

/-- `_build_cytoscape_elements` (`network_view.py` lines 15-93): filter
the institution edges to the works of the current slice, return the
empty list when nothing remains, otherwise aggregate, keep the targets
of the `top_n` heaviest groups, and build the hub node followed by the
institution nodes and hub-to-target edges. -/
def buildCytoscapeElements (institution_edges_df : List InstitutionEdge)
    (workIds : List Val) (top_n : Nat) : List CyElement :=
  let filtered := institution_edges_df.filter (fun e => workIds.contains e.work_id)
  if filtered.isEmpty then []
  else
    let agg := edge_agg filtered
    let top_targets := ((agg.take top_n).map (fun r => r.target)).dedup
    let agg2 := agg.filter (fun r => top_targets.contains r.target)
    let weights := agg2.map (fun r => (r.weight : ℚ))
    let max_weight := (weights.max?).getD 0
    let min_weight := (weights.min?).getD 0
    addAggRows min_weight max_weight agg2
      [.hubNode UOFT_NODE_ID "U of T" 75]
      [.vstr UOFT_NODE_ID]

/-! ## Sorting lemmas -/

theorem orderedInsert_perm {α : Type} (le : α → α → Bool) (a : α) (l : List α) :
    (orderedInsert le a l).Perm (a :: l) := by
  induction l with
  | nil => simp [orderedInsert]
  | cons b bs ih =>
      rw [orderedInsert]
      by_cases h : le a b
      · simp [h]
      · simp only [h, if_false]
        exact (List.Perm.cons b ih).trans (List.Perm.swap a b bs)

theorem stableSort_perm {α : Type} (le : α → α → Bool) (l : List α) :
    (stableSort le l).Perm l := by
  induction l with
  | nil => simp [stableSort]
  | cons a as ih =>
      rw [stableSort]
      exact (orderedInsert_perm le a (stableSort le as)).trans (ih.cons a)

theorem mem_stableSort {α : Type} (le : α → α → Bool) (l : List α) (x : α) :
    x ∈ stableSort le l ↔ x ∈ l :=
  (stableSort_perm le l).mem_iff

theorem orderedInsert_pairwise {α : Type} {le : α → α → Bool}
    (htrans : ∀ a b c, le a b = true → le b c = true → le a c = true)
    (htotal : ∀ a b, le a b = true ∨ le b a = true) (a : α) (l : List α)
    (hl : l.Pairwise (fun x y => le x y = true)) :
    (orderedInsert le a l).Pairwise (fun x y => le x y = true) := by
  induction l with
  | nil => simp [orderedInsert]
  | cons b bs ih =>
      rw [orderedInsert]
      rcases List.pairwise_cons.mp hl with ⟨hb, hbs⟩
      by_cases h : le a b
      · simp only [h, if_true]
        refine List.pairwise_cons.mpr ⟨?_, hl⟩
        intro x hx
        rcases List.mem_cons.mp hx with heq | hx
        · rw [heq]; exact h
        · exact htrans a b x h (hb x hx)
      · simp only [h, if_false]
        refine List.pairwise_cons.mpr ⟨?_, ih hbs⟩
        intro x hx
        have hx' : x = a ∨ x ∈ bs := by
          simpa using (orderedInsert_perm le a bs).mem_iff.mp hx
        rcases hx' with heq | hx'
        · rcases htotal a b with h' | h'
          · exact absurd h' (by simpa using h)
          · rw [heq]; exact h'
        · exact hb x hx'

theorem stableSort_pairwise {α : Type} {le : α → α → Bool}
    (htrans : ∀ a b c, le a b = true → le b c = true → le a c = true)
    (htotal : ∀ a b, le a b = true ∨ le b a = true) (l : List α) :
    (stableSort le l).Pairwise (fun x y => le x y = true) := by
  induction l with
  | nil => simp [stableSort]
  | cons a as ih =>
      rw [stableSort]
      exact orderedInsert_pairwise htrans htotal a _ ih

/-! ## Concrete sample records used by the witnesses -/

/-- A raw external-institution dict as returned by the OpenAlex API. -/
def sampleInstDict : Val :=
  .vdict [("id", .vstr "https://openalex.org/I121332437"),
          ("display_name", .vstr "Massachusetts Institute of Technology"),
          ("country_code", .vstr "US"),
          ("ror", .vstr "https://ror.org/042nb2s44")]

/-- A raw authorship dict holding one external institution. -/
def sampleAuthorship : Val :=
  .vdict [("institutions", .vlist [sampleInstDict])]

/-- A one-record raw works list with complete fields. -/
def sampleRaw : List Val :=
  [.vdict [("id", .vstr "https://openalex.org/W1"),
           ("title", .vstr "Sample work"),
           ("publication_year", .vint 2021),
           ("type", .vstr "article"),
           ("open_access", .vdict [("is_oa", .vbool true), ("oa_status", .vstr "gold")]),
           ("cited_by_count", .vint 5),
           ("concepts", .vlist
             [.vdict [("display_name", .vstr "Biology"), ("level", .vint 0), ("score", .vint 60)],
              .vdict [("display_name", .vstr "Genetics"), ("level", .vint 1), ("score", .vint 80)]]),
           ("authorships", .vlist [sampleAuthorship]),
           ("primary_location", .vdict [("source", .vdict [("display_name", .vstr "Nature")])])]]

/-- The works table transformed from `sampleRaw`. -/
def sampleDf : List WorkRow := (transform_works sampleRaw).toOption.getD []

/-- A raw works list whose single work lists the same external
institution under two different authorships (two co-authors with the
same affiliation). -/
def dupInstRaw : List Val :=
  [.vdict [("id", .vstr "https://openalex.org/W2"),
           ("publication_year", .vint 2022),
           ("authorships", .vlist
             [.vdict [("institutions", .vlist [sampleInstDict])],
              .vdict [("institutions", .vlist [sampleInstDict])]])]]

/-- The works table transformed from `dupInstRaw`. -/
def dupInstDf : List WorkRow := (transform_works dupInstRaw).toOption.getD []

/-! ## C1 — referential integrity of derived edges -/

/-- C1: for every works table produced by `transform_works`, every row of
the country-edges table and every row of the institution-edges table
carries a `work_id` equal to the `id` of some row of that works table —
edge rows exist only by derivation from works rows. -/
theorem c1_edges_reference_works (raw : List Val) (df : List WorkRow)
    (h : transform_works raw = Except.ok df) :
    (∀ e ∈ build_country_edges df, ∃ w ∈ df, e.work_id = w.id) ∧
    (∀ e ∈ build_institution_edges df, ∃ w ∈ df, e.work_id = w.id) := by
  constructor
  · intro e he
    rw [build_country_edges, List.mem_flatMap] at he
    obtain ⟨row, hrow, hmem⟩ := he
    obtain ⟨c, _, rfl⟩ := List.mem_map.mp hmem
    exact ⟨row, hrow, rfl⟩
  · intro e he
    rw [build_institution_edges, List.mem_flatMap] at he
    obtain ⟨row, hrow, hmem⟩ := he
    obtain ⟨i, _, rfl⟩ := List.mem_map.mp hmem
    exact ⟨row, hrow, rfl⟩

/-- C1 witness: the theorem applied to the sample transform output and
the first row of each derived edge table. -/
theorem c1_edges_reference_works_witness :
    (∃ w ∈ sampleDf,
      ((build_country_edges sampleDf).headD
        ⟨.vnone, .vnone, .vnone, .vnone, []⟩).work_id = w.id) ∧
    (∃ w ∈ sampleDf,
      ((build_institution_edges sampleDf).headD
        ⟨"", .vnone, .vnone, .vnone, .vnone, .vnone, []⟩).work_id = w.id) := by
  have h := c1_edges_reference_works sampleRaw sampleDf rfl
  exact ⟨h.1 _ (by decide), h.2 _ (by decide)⟩

/-! ## C4 — institution edges are per occurrence, not per pair -/

/-- C4 counterexample: a work listing the same external institution under
two authorships yields two institution-edge rows with the same
(work_id, target) pair, so the table is not free of duplicate
(work_id, target) rows. -/
theorem c4_duplicate_pair_counterexample :
    ∃ df, transform_works dupInstRaw = Except.ok df ∧
      ¬ ((build_institution_edges df).map (fun e => (e.work_id, e.target))).Nodup :=
  ⟨dupInstDf, rfl, by decide⟩

/-- C4 amended: `build_institution_edges` emits exactly one row per
(work, authorship-institution occurrence): the (work_id, target) pairs of
the table are, in order, the (id, institution name) pairs of each work
row's `collab_institutions` entries, and the table has one row per such
entry — so a work naming the same institution under several authorships
produces several identical pairs. -/
theorem c4_one_row_per_occurrence (df : List WorkRow) :
    ((build_institution_edges df).map (fun e => (e.work_id, e.target))) =
      df.flatMap (fun w => w.collab_institutions.map (fun i => (w.id, i.name))) ∧
    (build_institution_edges df).length =
      (df.map (fun w => w.collab_institutions.length)).sum := by
  constructor
  · rw [build_institution_edges, List.map_flatMap]
    exact congrArg (fun f => df.flatMap f)
      (funext fun row => by rw [List.map_map]; exact List.map_congr_left fun i _ => rfl)
  · rw [build_institution_edges, List.length_flatMap]
    apply congrArg List.sum
    apply List.map_congr_left
    intro w _
    simp [Function.comp, List.length_map]

/-! ## C8 — the tab bar and the tab renderer -/

/-- C8 counterexample: the tab bar defined in `layout.py` contains four
tabs, not five (there is no tab whose id is `"trends"`; the first tab,
labelled "Overview & Trends", has id `"overview"`). -/
theorem c8_tab_bar_not_five : ¬ main_tabs.length = 5 := by decide

/-- C8 amended: the tab bar contains four tabs with distinct identifiers,
while the tab-content renderer `render_tab` maps each of five distinct
active-tab identifiers to a distinct tab view (the `"trends"` identifier
is handled by the renderer but has no tab in the bar). -/
theorem c8_four_tabs_five_views :
    main_tabs.length = 4 ∧
    (main_tabs.map (fun t => t.tab_id)).Nodup ∧
    (["overview", "trends", "map", "network", "table"].map render_tab).Nodup ∧
    (∀ t ∈ main_tabs, t.tab_id ∈ ["overview", "trends", "map", "network", "table"]) := by
  decide

/-! ## C5 — missing processed files fail fast -/

/-- C5: `load_processed` returns a table if and only if the file exists
under the processed-data directory; when it is missing it raises a
`FileNotFoundError` whose message names the missing path and instructs
the operator to run the refresh job, and `load_all` succeeds if and only
if all three processed tables are present — it raises rather than
returning partial data. -/
theorem c5_load_fail_fast (fs : String → Option (List Val)) (filename : String) :
    ((load_processed fs filename).isOk = (fs (processedPath filename)).isSome) ∧
    (fs (processedPath filename) = none →
      load_processed fs filename = Except.error (processedPath filename ++
        " not found. Run etl/refresh.py first to build the data cache.")) ∧
    (∀ t, fs (processedPath filename) = some t →
      load_processed fs filename = Except.ok t) ∧
    ((load_all fs).isOk =
      ((fs (processedPath "works.parquet")).isSome &&
       (fs (processedPath "country_edges.parquet")).isSome &&
       (fs (processedPath "institution_edges.parquet")).isSome)) := by
  refine ⟨?_, ?_, ?_, ?_⟩
  · rw [load_processed]
    cases fs (processedPath filename) <;> simp [Except.isOk, Except.toBool]
  · intro h
    rw [load_processed, h]
  · intro t h
    rw [load_processed, h]
  · rw [load_all]
    simp only [load_processed]
    cases fs (processedPath "works.parquet") <;>
      cases fs (processedPath "country_edges.parquet") <;>
        cases fs (processedPath "institution_edges.parquet") <;>
          simp [Except.isOk, Except.toBool, Bind.bind, Except.bind, Pure.pure, Except.pure]

/-- C5 witness: the theorem applied to a file system with no files and to
one where every path holds an empty table. -/
theorem c5_load_fail_fast_witness :
    load_processed (fun _ => none) "works.parquet" =
      Except.error "data/processed/works.parquet not found. Run etl/refresh.py first to build the data cache." ∧
    load_processed (fun _ => some []) "works.parquet" = Except.ok [] :=
  ⟨(c5_load_fail_fast (fun _ => none) "works.parquet").2.1 rfl,
   (c5_load_fail_fast (fun _ => some []) "works.parquet").2.2.1 [] rfl⟩

/-! ## C7 — min-max normalization of node sizes -/

/-- C7: `calculate_node_size` is total and bounded — every weight between
the minimum and maximum aggregated weight is mapped into the pixel range
15 to 65, the mapping is monotone non-decreasing, it attains 15 at the
minimum and 65 at the maximum when they differ, and when the maximum
equals the minimum the division is skipped entirely and every node gets
the midpoint size 40, so the normalization never divides by zero. -/
theorem c7_node_size_normalization (min_weight max_weight : ℚ)
    (hle : min_weight ≤ max_weight) :
    (∀ w, min_weight ≤ w → w ≤ max_weight →
      15 ≤ calculate_node_size min_weight max_weight w ∧
      calculate_node_size min_weight max_weight w ≤ 65) ∧
    (∀ w1 w2, w1 ≤ w2 →
      calculate_node_size min_weight max_weight w1 ≤
        calculate_node_size min_weight max_weight w2) ∧
    (min_weight < max_weight →
      calculate_node_size min_weight max_weight min_weight = 15 ∧
      calculate_node_size min_weight max_weight max_weight = 65) ∧
    (max_weight = min_weight →
      ∀ w, calculate_node_size min_weight max_weight w = 40) := by
  by_cases heq : max_weight = min_weight
  · refine ⟨?_, ?_, ?_, ?_⟩
    · intro w h1 h2
      rw [calculate_node_size, if_pos heq, MIN_PX, MAX_PX]
      norm_num
    · intro w1 w2 _
      rw [calculate_node_size, if_pos heq, calculate_node_size, if_pos heq]
    · intro hlt
      exact absurd heq (ne_of_gt hlt)
    · intro _ w
      rw [calculate_node_size, if_pos heq, MIN_PX, MAX_PX]
      norm_num
  · have hlt : min_weight < max_weight := lt_of_le_of_ne hle (fun h => heq h.symm)
    have hd : 0 < max_weight - min_weight := by linarith
    refine ⟨?_, ?_, ?_, ?_⟩
    · intro w h1 h2
      rw [calculate_node_size, if_neg heq, MIN_PX, MAX_PX]
      have ht0 : 0 ≤ (w - min_weight) / (max_weight - min_weight) :=
        div_nonneg (by linarith) (le_of_lt hd)
      have ht1 : (w - min_weight) / (max_weight - min_weight) ≤ 1 :=
        (div_le_one hd).mpr (by linarith)
      constructor <;> nlinarith
    · intro w1 w2 h12
      rw [calculate_node_size, if_neg heq, calculate_node_size, if_neg heq, MIN_PX, MAX_PX]
      have h : (w1 - min_weight) / (max_weight - min_weight) ≤
          (w2 - min_weight) / (max_weight - min_weight) :=
        (div_le_div_iff_of_pos_right hd).mpr (by linarith)
      nlinarith [h]
    · intro _
      rw [calculate_node_size, if_neg heq, calculate_node_size, if_neg heq, MIN_PX, MAX_PX]
      constructor
      · field_simp
      · field_simp
    · intro h
      exact absurd h heq

/-- C7 witness: the theorem applied at minimum weight 1, maximum weight
3 and weight 2, and at the degenerate pair (2, 2). -/
theorem c7_node_size_normalization_witness :
    (15 ≤ calculate_node_size 1 3 2 ∧ calculate_node_size 1 3 2 ≤ 65) ∧
    calculate_node_size 1 3 1 = 15 ∧ calculate_node_size 1 3 3 = 65 ∧
    calculate_node_size 2 2 7 = 40 :=
  ⟨(c7_node_size_normalization 1 3 (by norm_num)).1 2 (by norm_num) (by norm_num),
   ((c7_node_size_normalization 1 3 (by norm_num)).2.2.1 (by norm_num)).1,
   ((c7_node_size_normalization 1 3 (by norm_num)).2.2.1 (by norm_num)).2,
   (c7_node_size_normalization 2 2 (by norm_num)).2.2.2 rfl 7⟩

/-! ## C6 — filter monotonicity -/

theorem filterConcepts_sublist (sc : List Val) {l1 l2 : List WorkRow}
    (h : l1.Sublist l2) : (filterConcepts sc l1).Sublist (filterConcepts sc l2) := by
  rw [filterConcepts, filterConcepts]
  by_cases he : sc.isEmpty <;> simp only [he, if_true, if_false]
  · exact h
  · exact h.filter _

theorem filterTypes_sublist (ty : List Val) {l1 l2 : List WorkRow}
    (h : l1.Sublist l2) : (filterTypes ty l1).Sublist (filterTypes ty l2) := by
  rw [filterTypes, filterTypes]
  by_cases he : ty.isEmpty <;> simp only [he, if_true, if_false]
  · exact h
  · exact h.filter _

theorem filterOa_sublist (oa : List String) {l1 l2 : List WorkRow}
    (h : l1.Sublist l2) : (filterOa oa l1).Sublist (filterOa oa l2) := by
  rw [filterOa, filterOa]
  by_cases he : oa.contains "oa" <;> simp only [he, if_true, if_false]
  · exact h.filter _
  · exact h

theorem yearGe_mono {v : Val} {lo lo' : Int} (h : lo' ≤ lo)
    (hg : yearGe v lo = true) : yearGe v lo' = true := by
  cases v <;> first
    | (simp only [yearGe, decide_eq_true_eq] at hg ⊢; omega)
    | simp [yearGe] at hg

theorem yearLe_mono {v : Val} {hi hi' : Int} (h : hi ≤ hi')
    (hl : yearLe v hi = true) : yearLe v hi' = true := by
  cases v <;> first
    | (simp only [yearLe, decide_eq_true_eq] at hl ⊢; omega)
    | simp [yearLe] at hl

theorem filterYear_mono {lo hi lo' hi' : Int} (works : List WorkRow)
    (h1 : lo' ≤ lo) (h2 : hi ≤ hi') :
    (filterYear lo hi works).Sublist (filterYear lo' hi' works) := by
  apply List.monotone_filter_right
  intro w hw
  simp only [Bool.and_eq_true] at hw ⊢
  exact ⟨yearGe_mono h1 hw.1, yearLe_mono h2 hw.2⟩

theorem filterConcepts_mono {sc1 sc2 : List Val} (l : List WorkRow)
    (hne : sc1 ≠ []) (hsub : sc1 ⊆ sc2) :
    (filterConcepts sc1 l).Sublist (filterConcepts sc2 l) := by
  have he1 : sc1.isEmpty = false := by
    cases sc1 with
    | nil => exact absurd rfl hne
    | cons a as => rfl
  have he2 : sc2.isEmpty = false := by
    cases sc1 with
    | nil => exact absurd rfl hne
    | cons a as =>
        cases sc2 with
        | nil => exact absurd (hsub (List.mem_cons_self a as)) (List.not_mem_nil a)
        | cons b bs => rfl
  rw [filterConcepts, filterConcepts, he1, he2]
  simp only [Bool.false_eq_true, if_false]
  apply List.monotone_filter_right
  intro w hw
  rcases List.any_eq_true.mp hw with ⟨c, hc, hmem⟩
  apply List.any_eq_true.mpr
  refine ⟨c, hc, ?_⟩
  have : c.name ∈ sc1 := by simpa using hmem
  simpa using hsub this

theorem filterTypes_mono {ty1 ty2 : List Val} (l : List WorkRow)
    (hne : ty1 ≠ []) (hsub : ty1 ⊆ ty2) :
    (filterTypes ty1 l).Sublist (filterTypes ty2 l) := by
  have he1 : ty1.isEmpty = false := by
    cases ty1 with
    | nil => exact absurd rfl hne
    | cons a as => rfl
  have he2 : ty2.isEmpty = false := by
    cases ty1 with
    | nil => exact absurd rfl hne
    | cons a as =>
        cases ty2 with
        | nil => exact absurd (hsub (List.mem_cons_self a as)) (List.not_mem_nil a)
        | cons b bs => rfl
  rw [filterTypes, filterTypes, he1, he2]
  simp only [Bool.false_eq_true, if_false]
  apply List.monotone_filter_right
  intro w hw
  have : w.type ∈ ty1 := by simpa using hw
  simpa using hsub this

/-- C6: `apply_filters` is monotonic in its inputs — widening the year
range yields a superset of the returned rows; for non-empty concept
selections, a larger selection returns a superset (likewise for type
selections); and enabling the open-access toggle only removes rows. -/
theorem c6_apply_filters_monotonic (works : List WorkRow)
    (lo hi lo' hi' : Int) (sc sc1 sc2 ty ty1 ty2 : List Val) (oa : List String) :
    (lo' ≤ lo → hi ≤ hi' →
      apply_filters works (lo, hi) sc ty oa ⊆ apply_filters works (lo', hi') sc ty oa) ∧
    (sc1 ≠ [] → sc1 ⊆ sc2 →
      apply_filters works (lo, hi) sc1 ty oa ⊆ apply_filters works (lo, hi) sc2 ty oa) ∧
    (ty1 ≠ [] → ty1 ⊆ ty2 →
      apply_filters works (lo, hi) sc ty1 oa ⊆ apply_filters works (lo, hi) sc ty2 oa) ∧
    (apply_filters works (lo, hi) sc ty ["oa"] ⊆ apply_filters works (lo, hi) sc ty []) := by
  refine ⟨?_, ?_, ?_, ?_⟩
  · intro h1 h2
    apply List.Sublist.subset
    apply filterOa_sublist
    apply filterTypes_sublist
    apply filterConcepts_sublist
    exact filterYear_mono works h1 h2
  · intro hne hsub
    apply List.Sublist.subset
    apply filterOa_sublist
    apply filterTypes_sublist
    exact filterConcepts_mono _ hne hsub
  · intro hne hsub
    apply List.Sublist.subset
    apply filterOa_sublist
    exact filterTypes_mono _ hne hsub
  · apply List.Sublist.subset
    rw [apply_filters, apply_filters, filterOa, filterOa]
    simp only [List.contains]
    show (List.filter _ _).Sublist _
    exact List.filter_sublist _

/-- C6 witness: the theorem applied to the sample works table with a
widened year range, a grown concept selection, a grown type selection,
and the open-access toggle. -/
theorem c6_apply_filters_monotonic_witness :
    (apply_filters sampleDf (2021, 2021) [] [] [] ⊆
      apply_filters sampleDf (2020, 2022) [] [] []) ∧
    (apply_filters sampleDf (2020, 2022) [.vstr "Genetics"] [] [] ⊆
      apply_filters sampleDf (2020, 2022) [.vstr "Genetics", .vstr "Biology"] [] []) ∧
    (apply_filters sampleDf (2020, 2022) [] [.vstr "article"] [] ⊆
      apply_filters sampleDf (2020, 2022) [] [.vstr "article", .vstr "preprint"] []) ∧
    (apply_filters sampleDf (2020, 2022) [] [] ["oa"] ⊆
      apply_filters sampleDf (2020, 2022) [] [] []) :=
  ⟨(c6_apply_filters_monotonic sampleDf 2021 2021 2020 2022 [] [] [] [] [] [] []).1
      (by decide) (by decide),
   (c6_apply_filters_monotonic sampleDf 2020 2022 2020 2022 []
      [.vstr "Genetics"] [.vstr "Genetics", .vstr "Biology"] [] [] [] []).2.1
      (by decide) (by decide),
   (c6_apply_filters_monotonic sampleDf 2020 2022 2020 2022 [] [] [] []
      [.vstr "article"] [.vstr "article", .vstr "preprint"] []).2.2.1
      (by decide) (by decide),
   (c6_apply_filters_monotonic sampleDf 2020 2022 2020 2022 [] [] [] [] [] [] []).2.2.2⟩

/-! ## C3 — country edges are deduplicated per work -/

theorem extract_countries_nodup (a : Val) (ex : String) (xs : List Val)
    (h : extract_countries a ex = Except.ok xs) : xs.Nodup := by
  cases a <;> simp only [extract_countries] at h
  case vnone => cases h; exact List.nodup_nil
  case vnan => cases h; exact List.nodup_nil
  case vstr s => cases h; exact List.nodup_nil
  case vdict kvs => cases h; exact List.nodup_nil
  case vint n => exact Except.noConfusion h
  case vbool b => exact Except.noConfusion h
  case vlist as =>
    cases hm : as.mapM (fun a => authorshipCountries a ex) with
    | error e => rw [hm] at h; simp [Bind.bind, Except.bind] at h
    | ok lists =>
        rw [hm] at h
        simp only [Bind.bind, Except.bind, pure, Except.pure] at h
        cases h
        exact List.nodup_dedup _

theorem buildRow_ok_inv (w : Val) (row : WorkRow) (h : buildRow w = Except.ok row) :
    extract_concepts (w.getD "concepts" (.vlist [])) 5 = Except.ok row.all_top_concepts ∧
    extract_countries (w.getD "authorships" (.vlist [])) "I185261750" =
      Except.ok row.collab_countries ∧
    extract_institutions (w.getD "authorships" (.vlist [])) "I185261750" =
      Except.ok row.collab_institutions ∧
    row.top_concept =
      (match row.all_top_concepts with | [] => Val.vnone | c :: _ => c.name) ∧
    row.concept_level =
      (match row.all_top_concepts with | [] => Val.vnone | c :: _ => c.level) := by
  rw [buildRow] at h
  by_cases hd : w.isDict
  case neg =>
    simp only [hd, Bool.false_eq_true, if_false] at h
    exact Except.noConfusion h
  case pos =>
    simp only [hd, if_true] at h
    cases h1 : extract_concepts (w.getD "concepts" (.vlist [])) 5 with
    | error e => rw [h1] at h; simp [Bind.bind, Except.bind] at h
    | ok tcl =>
    rw [h1] at h
    simp only [Bind.bind, Except.bind] at h
    cases h2 : extract_countries (w.getD "authorships" (.vlist [])) "I185261750" with
    | error e => rw [h2] at h; simp [Except.bind] at h
    | ok countries =>
    rw [h2] at h
    simp only [Except.bind] at h
    cases h3 : extract_institutions (w.getD "authorships" (.vlist [])) "I185261750" with
    | error e => rw [h3] at h; simp [Except.bind] at h
    | ok insts =>
    rw [h3] at h
    simp only [Except.bind] at h
    cases h4 : pyGet (pyOr (w.get "primary_location") (.vdict [])) "source" with
    | error e => rw [h4] at h; simp [Except.bind] at h
    | ok sourceVal =>
    rw [h4] at h
    simp only [Except.bind] at h
    cases h5 : pyGet (pyOr sourceVal (.vdict [])) "display_name" with
    | error e => rw [h5] at h; simp [Except.bind] at h
    | ok source_name =>
    rw [h5] at h
    simp only [Except.bind] at h
    cases h6 : pyGet (w.getD "open_access" (.vdict [])) "is_oa" with
    | error e => rw [h6] at h; simp [Except.bind] at h
    | ok is_oa =>
    rw [h6] at h
    simp only [Except.bind] at h
    cases h7 : pyGet (w.getD "open_access" (.vdict [])) "oa_status" with
    | error e => rw [h7] at h; simp [Except.bind] at h
    | ok oa_status =>
    rw [h7] at h
    simp only [Except.bind] at h
    cases h8 : pyLen (w.getD "authorships" (.vlist [])) with
    | error e => rw [h8] at h; simp [Except.bind] at h
    | ok author_count =>
    rw [h8] at h
    simp only [Except.bind, pure, Except.pure] at h
    cases h
    exact ⟨rfl, rfl, rfl, rfl, rfl⟩

theorem transform_works_mem (raw : List Val) (df : List WorkRow)
    (h : transform_works raw = Except.ok df) :
    ∀ row ∈ df, ∃ w ∈ raw, buildRow w = Except.ok row := by
  induction raw generalizing df with
  | nil =>
      rw [transform_works] at h
      simp only [List.mapM_nil, pure, Except.pure] at h
      cases h
      intro row hrow
      exact absurd hrow (List.not_mem_nil row)
  | cons a as ih =>
      rw [transform_works, List.mapM_cons] at h
      cases hb : buildRow a with
      | error e => rw [hb] at h; simp [Bind.bind, Except.bind] at h
      | ok r =>
          rw [hb] at h
          simp only [Bind.bind, Except.bind] at h
          cases hm : as.mapM buildRow with
          | error e => rw [hm] at h; simp [Except.bind] at h
          | ok rest =>
              rw [hm] at h
              simp only [pure, Except.pure] at h
              cases h
              intro row hrow
              rcases List.mem_cons.mp hrow with heq | hrow
              · exact ⟨a, List.mem_cons_self a as, heq ▸ hb⟩
              · obtain ⟨w, hw, hbw⟩ :=
                  ih rest (by rw [transform_works]; exact hm) row hrow
                exact ⟨w, List.mem_cons_of_mem a hw, hbw⟩

theorem build_country_edges_cons (r : WorkRow) (rest : List WorkRow) :
    build_country_edges (r :: rest) =
      r.collab_countries.map (fun country =>
        { work_id := r.id, year := r.year, country_code := country,
          top_concept := r.top_concept, all_top_concepts := r.all_top_concepts }) ++
      build_country_edges rest := by
  rw [build_country_edges, build_country_edges, List.flatMap_cons]

theorem country_pairs_nodup (df : List WorkRow)
    (hids : (df.map (fun w => w.id)).Nodup)
    (hrows : ∀ w ∈ df, w.collab_countries.Nodup) :
    ((build_country_edges df).map (fun e => (e.work_id, e.country_code))).Nodup := by
  induction df with
  | nil => simp [build_country_edges]
  | cons r rest ih =>
      rw [build_country_edges_cons, List.map_append, List.nodup_append]
      rw [List.map_cons, List.nodup_cons] at hids
      refine ⟨?_, ?_, ?_⟩
      · rw [List.map_map]
        apply List.Nodup.map ?_ (hrows r (List.mem_cons_self r rest))
        intro c1 c2 hc
        exact congrArg Prod.snd hc
      · exact ih hids.2 (fun w hw => hrows w (List.mem_cons_of_mem r hw))
      · intro p hp hp'
        rw [List.map_map] at hp
        obtain ⟨c, hc, hpc⟩ := List.mem_map.mp hp
        obtain ⟨e, he, hpe⟩ := List.mem_map.mp hp'
        have he' : e ∈ build_country_edges rest := he
        rw [build_country_edges] at he'
        obtain ⟨w, hw, hew⟩ := List.mem_flatMap.mp he'
        obtain ⟨c', hc', hec⟩ := List.mem_map.mp hew
        have h1 : p.1 = r.id := by rw [← hpc]; rfl
        have h2 : p.1 = w.id := by rw [← hpe, ← hec]
        apply hids.1
        exact List.mem_map.mpr ⟨w, hw, by rw [← h2]; exact h1⟩

/-- C3: `extract_countries` returns each collaborating country code at
most once, every transformed work row therefore carries a
duplicate-free `collab_countries` list, and — when the work ids of the
table are distinct — the country-edges table contains no duplicate
(work_id, country_code) pair. -/
theorem c3_country_edges_no_duplicates (raw : List Val) (df : List WorkRow)
    (h : transform_works raw = Except.ok df)
    (hids : (df.map (fun w => w.id)).Nodup) :
    (∀ a ex xs, extract_countries a ex = Except.ok xs → xs.Nodup) ∧
    (∀ w ∈ df, w.collab_countries.Nodup) ∧
    ((build_country_edges df).map (fun e => (e.work_id, e.country_code))).Nodup := by
  have hrows : ∀ w ∈ df, w.collab_countries.Nodup := by
    intro row hrow
    obtain ⟨w, _, hbw⟩ := transform_works_mem raw df h row hrow
    exact extract_countries_nodup _ _ _ (buildRow_ok_inv w row hbw).2.1
  exact ⟨fun a ex xs hx => extract_countries_nodup a ex xs hx, hrows,
    country_pairs_nodup df hids hrows⟩

/-- C3 witness: the theorem applied to the sample transform output and
its first row. -/
theorem c3_country_edges_no_duplicates_witness :
    ((sampleDf.headD
      ⟨.vnone, .vnone, .vnone, .vnone, .vnone, .vnone, .vnone, .vnone, .vnone,
       [], [], [], 0, .vnone⟩).collab_countries.Nodup) ∧
    ((build_country_edges sampleDf).map
      (fun e => (e.work_id, e.country_code))).Nodup :=
  ⟨(c3_country_edges_no_duplicates sampleRaw sampleDf rfl (by decide)).2.1 _ (by decide),
   (c3_country_edges_no_duplicates sampleRaw sampleDf rfl (by decide)).2.2⟩

/-! ## C9 — top-concept selection rule -/

/-- The score key of a returned concept record: its embedded integer
score, a missing or non-numeric score counting as 0 (matching the sort
key `x.get("score", 0)` of the source). -/
def outKey (r : ConceptOut) : Int :=
  match r.score with
  | .vint n => n
  | _ => 0

theorem conceptDesc_trans (a b c : Val) (h1 : conceptDesc a b = true)
    (h2 : conceptDesc b c = true) : conceptDesc a c = true := by
  simp only [conceptDesc, decide_eq_true_eq] at h1 h2 ⊢
  omega

theorem conceptDesc_total (a b : Val) :
    conceptDesc a b = true ∨ conceptDesc b a = true := by
  simp only [conceptDesc, decide_eq_true_eq]
  omega

theorem outKey_conceptOut (c : Val) (h : c.isDict = true) :
    outKey (conceptOut c) = conceptKey c := by
  cases c <;> simp only [Val.isDict, Bool.false_eq_true] at h
  case vdict kvs =>
    rw [conceptOut, conceptKey]
    simp only [Val.isDict, if_true]
    rw [outKey]
    simp only [Val.get, Val.getD]
    cases kvs.lookup "score" with
    | none => rfl
    | some v => cases v <;> rfl

theorem extract_concepts_sorted (v : Val) (xs : List ConceptOut)
    (h : extract_concepts v 5 = Except.ok xs) :
    xs.length ≤ 5 ∧ xs.Pairwise (fun a b => outKey b ≤ outKey a) := by
  cases v <;> simp only [extract_concepts] at h
  case vint n => exact Except.noConfusion h
  case vbool b => exact Except.noConfusion h
  case vnone => cases h; exact ⟨by norm_num, List.Pairwise.nil⟩
  case vnan => cases h; exact ⟨by norm_num, List.Pairwise.nil⟩
  case vstr s => cases h; exact ⟨by norm_num, List.Pairwise.nil⟩
  case vdict kvs => cases h; exact ⟨by norm_num, List.Pairwise.nil⟩
  case vlist cs =>
    cases h
    constructor
    · rw [List.length_map]
      calc (((stableSort conceptDesc cs).take 5).filter Val.isDict).length
          ≤ ((stableSort conceptDesc cs).take 5).length := List.length_filter_le _ _
        _ ≤ 5 := List.length_take_le 5 _
    · have hs : (stableSort conceptDesc cs).Pairwise (fun a b => conceptDesc a b = true) :=
        stableSort_pairwise conceptDesc_trans conceptDesc_total cs
      have hsub : (((stableSort conceptDesc cs).take 5).filter Val.isDict).Sublist
          (stableSort conceptDesc cs) :=
        (List.filter_sublist _).trans (List.take_sublist 5 _)
      have hp := List.Pairwise.sublist hsub hs
      rw [List.pairwise_map]
      refine List.Pairwise.imp_of_mem ?_ hp
      intro a b ha hb hab
      have hda : a.isDict = true := (List.mem_filter.mp ha).2
      have hdb : b.isDict = true := (List.mem_filter.mp hb).2
      rw [outKey_conceptOut a hda, outKey_conceptOut b hdb]
      simpa [conceptDesc] using hab

theorem extract_concepts_head_max (cs : List Val) (xs : List ConceptOut)
    (hdict : ∀ c ∈ cs, c.isDict = true)
    (h : extract_concepts (.vlist cs) 5 = Except.ok xs)
    (hd : ConceptOut) (hh : xs.head? = some hd) :
    ∀ c ∈ cs, conceptKey c ≤ outKey hd := by
  simp only [extract_concepts] at h
  cases h
  have hfilter : ((stableSort conceptDesc cs).take 5).filter Val.isDict =
      (stableSort conceptDesc cs).take 5 := by
    rw [List.filter_eq_self]
    intro a ha
    exact hdict a ((mem_stableSort conceptDesc cs a).mp
      ((List.take_sublist 5 _).subset ha))
  rw [hfilter, List.head?_map, List.head?_take] at hh
  simp only [show ¬ (5 : Nat) = 0 by norm_num, if_false] at hh
  cases hms : stableSort conceptDesc cs with
  | nil => rw [hms] at hh; simp at hh
  | cons c0 tail =>
      rw [hms] at hh
      have hc0hd : conceptOut c0 = hd := by simpa using hh
      have hc0cs : c0 ∈ cs := (mem_stableSort conceptDesc cs c0).mp
        (by rw [hms]; exact List.mem_cons_self c0 tail)
      intro c hc
      have hcm : c ∈ stableSort conceptDesc cs :=
        (mem_stableSort conceptDesc cs c).mpr hc
      rw [hms] at hcm
      rw [← hc0hd, outKey_conceptOut c0 (hdict c0 hc0cs)]
      rcases List.mem_cons.mp hcm with heq | hcm
      · rw [heq]
      · have hs : (stableSort conceptDesc cs).Pairwise
            (fun a b => conceptDesc a b = true) :=
          stableSort_pairwise conceptDesc_trans conceptDesc_total cs
        rw [hms] at hs
        have hrel := List.rel_of_pairwise_cons hs hcm
        simpa [conceptDesc] using hrel

/-- C9: `extract_concepts` returns at most 5 entries ordered by
non-increasing score (a missing score counting as 0); it returns the
empty list on `None`, `NaN` and empty inputs; the head of its result has
maximal score among the concepts of the work (when the raw concept
entries are dicts, as the API returns them); and `transform_works` sets
each row's `top_concept` and `concept_level` to the name and level of
that highest-scoring concept, or `None` when the work has no concepts. -/
theorem c9_top_concept_rule :
    (∀ v xs, extract_concepts v 5 = Except.ok xs →
      xs.length ≤ 5 ∧ xs.Pairwise (fun a b => outKey b ≤ outKey a)) ∧
    (extract_concepts .vnone 5 = Except.ok [] ∧
     extract_concepts .vnan 5 = Except.ok [] ∧
     extract_concepts (.vlist []) 5 = Except.ok []) ∧
    (∀ cs xs hd, (∀ c ∈ cs, c.isDict = true) →
      extract_concepts (.vlist cs) 5 = Except.ok xs → xs.head? = some hd →
      ∀ c ∈ cs, conceptKey c ≤ outKey hd) ∧
    (∀ w row, buildRow w = Except.ok row →
      (row.all_top_concepts = [] →
        row.top_concept = Val.vnone ∧ row.concept_level = Val.vnone) ∧
      (∀ hd, row.all_top_concepts.head? = some hd →
        row.top_concept = hd.name ∧ row.concept_level = hd.level)) := by
  refine ⟨extract_concepts_sorted, ⟨rfl, rfl, rfl⟩, ?_, ?_⟩
  · intro cs xs hd hdict h hh
    exact extract_concepts_head_max cs xs hdict h hd hh
  · intro w row h
    obtain ⟨_, _, _, htc, hcl⟩ := buildRow_ok_inv w row h
    constructor
    · intro hnil
      rw [htc, hcl, hnil]
      exact ⟨rfl, rfl⟩
    · intro hd hh
      cases hx : row.all_top_concepts with
      | nil => rw [hx] at hh; simp at hh
      | cons c t =>
          rw [hx] at hh
          have : c = hd := by simpa using hh
          subst this
          rw [htc, hcl, hx]
          exact ⟨rfl, rfl⟩

/-- The concepts list of the sample work, as a raw value. -/
def sampleConceptsVal : Val :=
  .vlist [.vdict [("display_name", .vstr "Biology"), ("level", .vint 0), ("score", .vint 60)],
          .vdict [("display_name", .vstr "Genetics"), ("level", .vint 1), ("score", .vint 80)]]

/-- The concept records extracted from the sample concepts list. -/
def sampleConceptsOut : List ConceptOut :=
  (extract_concepts sampleConceptsVal 5).toOption.getD []

/-- A placeholder work row used as a `headD` default. -/
def emptyWorkRow : WorkRow :=
  ⟨.vnone, .vnone, .vnone, .vnone, .vnone, .vnone, .vnone, .vnone, .vnone,
   [], [], [], 0, .vnone⟩

/-- C9 witness: the theorem applied to a concrete two-concept list (the
higher-scoring Genetics concept is selected first) and to the sample
work record. -/
theorem c9_top_concept_rule_witness :
    sampleConceptsOut.length ≤ 5 ∧
    ((sampleDf.headD emptyWorkRow).top_concept = .vstr "Genetics" ∧
     (sampleDf.headD emptyWorkRow).concept_level = .vint 1) := by
  constructor
  · exact (c9_top_concept_rule.1 sampleConceptsVal sampleConceptsOut rfl).1
  · have h := (c9_top_concept_rule.2.2.2
      (sampleRaw.headD .vnone) (sampleDf.headD emptyWorkRow) rfl).2
      ⟨.vstr "Genetics", .vint 1, .vint 80⟩ rfl
    exact ⟨h.1, h.2⟩

/-! ## C2 — crash recovery versus direct refresh -/

theorem dedup_append_sub {α : Type} [DecidableEq α] (l1 l2 : List α) (h : l1 ⊆ l2) :
    (l1 ++ l2).dedup = l2.dedup := by
  induction l1 with
  | nil => rfl
  | cons x xs ih =>
      rw [List.cons_append,
        List.dedup_cons_of_mem (List.mem_append.mpr (Or.inr (h (List.mem_cons_self x xs))))]
      exact ih (fun a ha => h (List.mem_cons_of_mem x ha))

theorem unionKeys_uniform : ∀ (records : List Val) (ks : List String), ks.Nodup →
    (∀ r ∈ records, recordKeys r = ks) → records ≠ [] → unionKeys records = ks
  | [], _, _, _, hne => absurd rfl hne
  | [r], ks, hnd, hrec, _ => by
      rw [unionKeys, List.flatMap_cons, hrec r (List.mem_cons_self r []),
        List.flatMap_nil, List.append_nil]
      exact List.dedup_eq_self.mpr hnd
  | r :: r2 :: rest, ks, hnd, hrec, _ => by
      have ihU : unionKeys (r2 :: rest) = ks :=
        unionKeys_uniform (r2 :: rest) ks hnd
          (fun x hx => hrec x (List.mem_cons_of_mem r hx)) (List.cons_ne_nil r2 rest)
      rw [unionKeys] at ihU
      rw [unionKeys, List.flatMap_cons, hrec r (List.mem_cons_self r (r2 :: rest)),
        dedup_append_sub]
      · exact ihU
      · intro a ha
        exact List.mem_flatMap.mpr
          ⟨r2, List.mem_cons_self r2 rest, by
            rw [hrec r2 (List.mem_cons_of_mem r (List.mem_cons_self r2 rest))]
            exact ha⟩

theorem keys_map_lookup (kvs : List (String × Val))
    (hnd : (kvs.map Prod.fst).Nodup) :
    (kvs.map Prod.fst).map (fun k => (k, ((kvs.lookup k).getD Val.vnan))) = kvs := by
  induction kvs with
  | nil => rfl
  | cons kv rest ih =>
      obtain ⟨k1, v1⟩ := kv
      simp only [List.map_cons, List.nodup_cons] at hnd
      rw [List.map_cons, List.map_cons]
      congr 1
      · simp [List.lookup]
      · have hrw : ∀ k ∈ rest.map Prod.fst,
            (k, ((((k1, v1) :: rest).lookup k).getD Val.vnan)) =
            (k, ((rest.lookup k).getD Val.vnan)) := by
          intro k hk
          have hne : (k == k1) = false := by
            have hkk : k ≠ k1 := fun h => hnd.1 (h ▸ hk)
            simpa using hkk
          simp [List.lookup, hne]
        rw [List.map_congr_left hrw]
        exact ih hnd.2

theorem pandasRoundTrip_id (records : List Val) (ks : List String) (hnd : ks.Nodup)
    (hrec : ∀ r ∈ records, recordKeys r = ks ∧ r.isDict = true) :
    pandasRoundTrip records = Except.ok records := by
  rw [pandasRoundTrip]
  have hall : records.all Val.isDict = true := by
    rw [List.all_eq_true]
    intro r hr
    exact (hrec r hr).2
  rw [if_pos hall]
  congr 1
  cases hre : records with
  | nil => rfl
  | cons r0 rest =>
      rw [← hre]
      have hU : unionKeys records = ks :=
        unionKeys_uniform records ks hnd (fun r hr => (hrec r hr).1)
          (by rw [hre]; exact List.cons_ne_nil r0 rest)
      rw [hU]
      have hpt : ∀ r ∈ records,
          Val.vdict (ks.map (fun k => (k, r.getD k Val.vnan))) = id r := by
        intro r hr
        obtain ⟨hkeys, hdict⟩ := hrec r hr
        cases r <;> simp only [Val.isDict, Bool.false_eq_true] at hdict
        case vdict kvs =>
          rw [recordKeys] at hkeys
          rw [id_eq, ← hkeys]
          have : ∀ k ∈ kvs.map Prod.fst,
              (k, Val.getD (Val.vdict kvs) k Val.vnan) =
              (k, ((kvs.lookup k).getD Val.vnan)) := by
            intro k _
            rfl
          rw [List.map_congr_left this]
          rw [keys_map_lookup kvs (hkeys ▸ hnd)]
      rw [List.map_congr_left hpt, List.map_id]

/-- A raw works list with heterogeneous record keys: the first record
lacks the `open_access` key that the second record carries. -/
def hetRaw : List Val :=
  [.vdict [("id", .vstr "W1")],
   .vdict [("id", .vstr "W2"), ("open_access", .vdict [("is_oa", .vbool true)])]]

/-- C2 counterexample: on `hetRaw` the direct transform succeeds, but the
checkpoint round trip fills the first record's missing `open_access`
entry with `NaN`, on which `NaN.get("is_oa")` raises — so `run_recovery`
does not reproduce the tables that `full_refresh` builds from the same
records. -/
theorem c2_recovery_counterexample :
    run_recovery_tables hetRaw ≠ full_refresh_tables hetRaw := by decide

/-- C2 amended: for every list of raw records that are dicts over one
common key set — as records fetched through the API's fixed `select`
field list are — replaying the raw checkpoint produces exactly the three
tables that the transform stage of `full_refresh` produces directly. -/
theorem c2_recovery_matches_refresh (raw : List Val) (ks : List String)
    (hnd : ks.Nodup) (hrec : ∀ r ∈ raw, recordKeys r = ks ∧ r.isDict = true) :
    run_recovery_tables raw = full_refresh_tables raw := by
  rw [run_recovery_tables, pandasRoundTrip_id raw ks hnd hrec]
  rfl

/-- C2 witness: the amended theorem applied to the sample raw works
list. -/
theorem c2_recovery_matches_refresh_witness :
    run_recovery_tables sampleRaw = full_refresh_tables sampleRaw :=
  c2_recovery_matches_refresh sampleRaw
    ["id", "title", "publication_year", "type", "open_access", "cited_by_count",
     "concepts", "authorships", "primary_location"]
    (by decide) (by decide)

/-! ## C10 — star-graph invariant of the collaboration network -/

/-- Whether an element is the hub node. -/
def isHub : CyElement → Bool
  | .hubNode _ _ _ => true
  | _ => false

/-- The node id of an institution node element, if any. -/
def cyInstId : CyElement → Option Val
  | .instNode i _ _ _ _ => some i
  | _ => none

/-- The source of an edge element, if any. -/
def cyEdgeSource : CyElement → Option String
  | .edgeEl s _ _ _ => some s
  | _ => none

theorem addAggRows_inv (minW maxW : ℚ) (rows : List AggRow) :
    ∀ (els : List CyElement) (seen : List Val),
    els.countP isHub = 1 →
    (els.filterMap cyInstId).Nodup →
    (∀ i ∈ els.filterMap cyInstId, i ∈ seen) →
    (∀ s ∈ els.filterMap cyEdgeSource, s = UOFT_NODE_ID) →
    (∀ el ∈ els, isHub el = true → el = .hubNode UOFT_NODE_ID "U of T" 75) →
    ((addAggRows minW maxW rows els seen).countP isHub = 1 ∧
     (∀ el ∈ addAggRows minW maxW rows els seen, isHub el = true →
        el = .hubNode UOFT_NODE_ID "U of T" 75) ∧
     ((addAggRows minW maxW rows els seen).filterMap cyInstId).Nodup ∧
     (∀ s ∈ (addAggRows minW maxW rows els seen).filterMap cyEdgeSource,
        s = UOFT_NODE_ID)) := by
  induction rows with
  | nil =>
      intro els seen h1 h2 h3 h4 h5
      rw [addAggRows]
      exact ⟨h1, h5, h2, h4⟩
  | cons r rs ih =>
      intro els seen h1 h2 h3 h4 h5
      rw [addAggRows]
      by_cases hseen : seen.contains r.target
      · simp only [hseen, if_true]
        apply ih
        · rw [List.countP_append, h1]
          simp [List.countP_cons, isHub]
        · rw [List.filterMap_append]
          simpa [cyInstId] using h2
        · intro i hi
          rw [List.filterMap_append] at hi
          simp only [cyInstId, List.filterMap_cons, List.filterMap_nil,
            List.append_nil] at hi
          exact h3 i hi
        · intro s hs
          rw [List.filterMap_append] at hs
          rcases List.mem_append.mp hs with hs | hs
          · exact h4 s hs
          · simp only [cyEdgeSource, List.filterMap_cons, List.filterMap_nil] at hs
            simpa using hs
        · intro el hel hhub
          rcases List.mem_append.mp hel with hel | hel
          · exact h5 el hel hhub
          · have : el = .edgeEl UOFT_NODE_ID r.target r.weight (toString r.weight) := by
              simpa using hel
            rw [this] at hhub
            exact absurd hhub (by simp [isHub])
      · simp only [hseen, if_false]
        apply ih
        · rw [List.countP_append, List.countP_append, h1]
          simp [List.countP_cons, isHub]
        · rw [List.filterMap_append, List.filterMap_append]
          simp only [cyInstId, List.filterMap_cons, List.filterMap_nil, List.append_nil]
          rw [List.nodup_append]
          refine ⟨h2, List.nodup_singleton _, ?_⟩
          intro a ha ha'
          have haT : a = r.target := by simpa using ha'
          have hmem : r.target ∈ seen := haT ▸ h3 a ha
          exact absurd hmem (by simpa using hseen)
        · intro i hi
          rw [List.filterMap_append, List.filterMap_append] at hi
          simp only [cyInstId, List.filterMap_cons, List.filterMap_nil,
            List.append_nil] at hi
          rcases List.mem_append.mp hi with hi | hi
          · exact List.mem_append.mpr (Or.inl (h3 i hi))
          · exact List.mem_append.mpr (Or.inr (by simpa using hi))
        · intro s hs
          rw [List.filterMap_append, List.filterMap_append] at hs
          rcases List.mem_append.mp hs with hs | hs
          · rcases List.mem_append.mp hs with hs | hs
            · exact h4 s hs
            · exact absurd hs (by simp [cyEdgeSource])
          · simp only [cyEdgeSource, List.filterMap_cons, List.filterMap_nil] at hs
            simpa using hs
        · intro el hel hhub
          rcases List.mem_append.mp hel with hel | hel
          · rcases List.mem_append.mp hel with hel | hel
            · exact h5 el hel hhub
            · have : el = .instNode r.target r.target r.target_country
                  (calculate_node_size minW maxW (r.weight : ℚ)) r.weight := by
                simpa using hel
              rw [this] at hhub
              exact absurd hhub (by simp [isHub])
          · have : el = .edgeEl UOFT_NODE_ID r.target r.weight (toString r.weight) := by
              simpa using hel
            rw [this] at hhub
            exact absurd hhub (by simp [isHub])

/-- C10: every row of the institution-edges table has the constant
source `"University of Toronto"`, and every non-empty Cytoscape element
list contains exactly one hub element (the UofT hub node), every edge
element has the hub as its source, and each institution node id appears
at most once. -/
theorem c10_star_graph (df : List WorkRow)
    (institution_edges_df : List InstitutionEdge) (workIds : List Val)
    (top_n : Nat) :
    (∀ e ∈ build_institution_edges df, e.source = "University of Toronto") ∧
    (buildCytoscapeElements institution_edges_df workIds top_n ≠ [] →
      ((buildCytoscapeElements institution_edges_df workIds top_n).countP isHub = 1 ∧
       (∀ el ∈ buildCytoscapeElements institution_edges_df workIds top_n,
          isHub el = true → el = .hubNode UOFT_NODE_ID "U of T" 75) ∧
       ((buildCytoscapeElements institution_edges_df workIds top_n).filterMap
          cyInstId).Nodup ∧
       (∀ s ∈ (buildCytoscapeElements institution_edges_df workIds top_n).filterMap
          cyEdgeSource, s = UOFT_NODE_ID))) := by
  constructor
  · intro e he
    rw [build_institution_edges] at he
    obtain ⟨row, _, hmem⟩ := List.mem_flatMap.mp he
    obtain ⟨i, _, rfl⟩ := List.mem_map.mp hmem
    rfl
  · intro hne
    by_cases hfe : (institution_edges_df.filter
        (fun e => workIds.contains e.work_id)).isEmpty
    · have hred0 : buildCytoscapeElements institution_edges_df workIds top_n = [] := by
        rw [buildCytoscapeElements]
        simp only [hfe, if_true]
      exact absurd hred0 hne
    · have hred : buildCytoscapeElements institution_edges_df workIds top_n =
          addAggRows
            (((((edge_agg (institution_edges_df.filter
                (fun e => workIds.contains e.work_id))).filter (fun r =>
                  ((((edge_agg (institution_edges_df.filter
                    (fun e => workIds.contains e.work_id))).take top_n).map
                      (fun r => r.target)).dedup).contains r.target)).map
                        (fun r => (r.weight : ℚ))).min?).getD 0)
            (((((edge_agg (institution_edges_df.filter
                (fun e => workIds.contains e.work_id))).filter (fun r =>
                  ((((edge_agg (institution_edges_df.filter
                    (fun e => workIds.contains e.work_id))).take top_n).map
                      (fun r => r.target)).dedup).contains r.target)).map
                        (fun r => (r.weight : ℚ))).max?).getD 0)
            ((edge_agg (institution_edges_df.filter
                (fun e => workIds.contains e.work_id))).filter (fun r =>
                  ((((edge_agg (institution_edges_df.filter
                    (fun e => workIds.contains e.work_id))).take top_n).map
                      (fun r => r.target)).dedup).contains r.target))
            [.hubNode UOFT_NODE_ID "U of T" 75]
            [.vstr UOFT_NODE_ID] := by
        rw [buildCytoscapeElements]
        simp only [hfe, Bool.false_eq_true, if_false]
      rw [hred]
      exact addAggRows_inv _ _ _
        [.hubNode UOFT_NODE_ID "U of T" 75] [.vstr UOFT_NODE_ID]
        (by simp [List.countP_cons, isHub])
        (by simp [cyInstId])
        (by simp [cyInstId])
        (by simp [cyEdgeSource])
        (by intro el hel _; simpa using hel)

/-- C10 witness: the theorem applied to the institution edges of the
sample works table and the element list they generate. -/
theorem c10_star_graph_witness :
    ((build_institution_edges sampleDf).headD
      ⟨"", .vnone, .vnone, .vnone, .vnone, .vnone, []⟩).source = "University of Toronto" ∧
    (buildCytoscapeElements (build_institution_edges sampleDf)
      [.vstr "https://openalex.org/W1"] 20).countP isHub = 1 ∧
    ((buildCytoscapeElements (build_institution_edges sampleDf)
      [.vstr "https://openalex.org/W1"] 20).filterMap cyInstId).Nodup := by
  have hc := c10_star_graph sampleDf (build_institution_edges sampleDf)
    [.vstr "https://openalex.org/W1"] 20
  have hne : buildCytoscapeElements (build_institution_edges sampleDf)
      [.vstr "https://openalex.org/W1"] 20 ≠ [] := by
    intro hnil
    have hlen : (buildCytoscapeElements (build_institution_edges sampleDf)
        [.vstr "https://openalex.org/W1"] 20).length = 3 := rfl
    rw [hnil] at hlen
    exact absurd hlen (by decide)
  exact ⟨hc.1 _ (by decide), (hc.2 hne).1, (hc.2 hne).2.2.1⟩
